import Mathlib

/-!
Verification development for the transcript-helper repository.

The program under study is the `processAudio` workflow of
`src/src/components/AudioProcessor.vue`: upload an audio file to a remote
transcription service, submit a transcription job, poll its status until a
terminal status arrives, and produce either a plain-text transcript or an
SRT subtitle file.

The embedding below models the workflow as a pure function over an
environment of network responses.  Remote statuses are the literal wire
strings used by the source ("queued", "processing", "completed", "error");
the spec's capitalized names Queued/Processing/Completed/Error denote the
same values.  Network traffic and the sole suspension point (the 1000 ms
sleep at the top of each poll iteration) are recorded in an event trace,
and every assignment to the `processingProgress` ref is recorded in a
progress trace, in program order.
-/

namespace TranscriptHelper

/-- One response to a status query (`GET /v2/transcript/{id}`): `ok` is the
transport-level success flag of the fetch, `status` is the JSON `status`
field, `text` the JSON `text` field (the transcript, present when
completed). -/
structure PollResponse where
  ok : Bool
  status : String
  text : String
deriving DecidableEq, Repr

/-- The selected audio file: display name and payload bytes.  Mirrors the
fields of the browser File object that `processAudio` reads. -/
structure AudioFile where
  name : String
  bytes : List Nat
deriving DecidableEq, Repr

/-- The component state read by `processAudio` when the run starts:
`apiKey`, the optional `audioFile`, `outputType` ("transcript" or
"subtitles") and `characterLength`. -/
structure Inputs where
  apiKey : String
  audioFile : Option AudioFile
  outputType : String
  characterLength : Nat
deriving DecidableEq, Repr

/-- The remote service's behaviour for one run: outcome of the upload call,
the returned `upload_url`, outcome of the submit call, the returned job
`id`, the successive status-query responses, and the caption call's outcome
and raw SRT text. -/
structure Env where
  uploadOk : Bool
  uploadUrl : String
  submitOk : Bool
  transcriptId : String
  polls : List PollResponse
  srtOk : Bool
  srtText : String
deriving DecidableEq, Repr

/-- An outbound network call, with the credential it carries. -/
inductive NetCall where
  | upload (auth : String) (body : List Nat)
  | submit (auth : String) (audioUrl : String)
  | pollStatus (auth : String) (id : String)
  | srt (auth : String) (id : String) (charsPerCaption : Nat)
deriving DecidableEq, Repr

/-- An observable step of the run: a timed suspension or a network call. -/
inductive Event where
  | sleep (ms : Nat)
  | call (c : NetCall)
deriving DecidableEq, Repr

/-- How the poll loop ended: a non-ok status response (the code throws
"Failed to check transcription status"), loop exit with the last observed
status, its payload text and the final poll count, or `exhausted` when the
modelled response list ran out while the loop would still continue (the
real loop would block on the next fetch). -/
inductive PollOutcome where
  | transportFail
  | finished (status : String) (text : String) (pollCount : Nat)
  | exhausted
deriving DecidableEq, Repr

/-- Trace and result of the poll loop: events in order, the successive
values assigned to `processingProgress` inside the loop, the final progress
value, and the loop outcome. -/
structure PollResult where
  events : List Event
  progressUpdates : List Nat
  finalProgress : Nat
  outcome : PollOutcome
deriving DecidableEq, Repr

/-- The poll loop of `processAudio` (lines 160-190).  The source enters the
loop with `status = "processing"` and `pollCount = 0`; each iteration
sleeps 1000 ms, issues one status query, throws on a non-ok response,
otherwise reads the new status, increments `pollCount`, updates progress to
`min(80, 50 + pollCount*2)` when the status is "processing", and loops
again exactly when the status is "processing" or "queued". -/
def pollLoop (auth id : String) : List PollResponse → Nat → Nat → PollResult
  | [], _, prog =>
    { events := [Event.sleep 1000, Event.call (NetCall.pollStatus auth id)],
      progressUpdates := [], finalProgress := prog,
      outcome := PollOutcome.exhausted }
  | r :: rest, pollCount, prog =>
    let evts : List Event := [Event.sleep 1000, Event.call (NetCall.pollStatus auth id)]
    if r.ok = false then
      { events := evts, progressUpdates := [], finalProgress := prog,
        outcome := PollOutcome.transportFail }
    else
      let pc := pollCount + 1
      if r.status = "processing" then
        let newProg := min 80 (50 + pc * 2)
        let res := pollLoop auth id rest pc newProg
        { events := evts ++ res.events,
          progressUpdates := newProg :: res.progressUpdates,
          finalProgress := res.finalProgress, outcome := res.outcome }
      else if r.status = "queued" then
        let res := pollLoop auth id rest pc prog
        { events := evts ++ res.events,
          progressUpdates := res.progressUpdates,
          finalProgress := res.finalProgress, outcome := res.outcome }
      else
        { events := evts, progressUpdates := [], finalProgress := prog,
          outcome := PollOutcome.finished r.status r.text pc }

/-- A status response after which the loop keeps polling: transport-ok and
status "processing" or "queued". -/
def continuing (r : PollResponse) : Bool :=
  r.ok && (decide (r.status = "processing") || decide (r.status = "queued"))

/-- The event trace of `n` poll iterations: each iteration is one sleep
followed by one status query. -/
def pollEvents (auth id : String) (n : Nat) : List Event :=
  (List.replicate n [Event.sleep 1000, Event.call (NetCall.pollStatus auth id)]).flatten

/-- JavaScript `String.prototype.split` with a one-character separator,
over the character list of the string: `split` never returns an empty
list, and returns `[[]]` on the empty string. -/
def jsSplit (sep : Char) : List Char → List (List Char)
  | [] => [[]]
  | c :: rest =>
    let r := jsSplit sep rest
    if c = sep then [] :: r
    else (c :: r.headD []) :: r.tail

/-- The filename stem of lines 220/224 of the source:
`audioFile.value.name.split(".")[0]`. -/
def stem (name : String) : String :=
  String.mk ((jsSplit '.' name.toList).headD [])

/-- Modelled from the spec's words for the refinement comparison of the
filename rule: "splitting on the first `.` and taking the first segment"
is taking the characters strictly before the first dot. -/
def specStem (name : String) : String :=
  String.mk (name.toList.takeWhile fun c => !decide (c = '.'))

/-- How the whole run ended.  `earlyNoKey`/`earlyNoFile` are the two early
returns before the try block; `failed` carries the message of the caught
error; `succeeded` carries the downloaded content and filename;
`incomplete` marks an `exhausted` poll loop (the real run would still be
blocked inside the loop). -/
inductive RunOutcome where
  | earlyNoKey
  | earlyNoFile
  | failed (msg : String)
  | succeeded (output : String) (filename : String)
  | incomplete
deriving DecidableEq, Repr

/-- Final observable state of one `processAudio` run: the event trace, all
values assigned to `processingProgress` in order, the final `isLoading`,
`errorMessage` and `successMessage` refs, the `(content, filename)` pair
passed to `downloadFile` (if any), and the outcome. -/
structure RunResult where
  events : List Event
  progressTrace : List Nat
  isLoading : Bool
  errorMessage : String
  successMessage : String
  download : Option (String × String)
  outcome : RunOutcome
deriving DecidableEq, Repr

/-- The `processAudio` handler (lines 91-242), as a function of the
component inputs, the service environment, and the value of `isLoading`
when the handler starts.  The two precondition checks return early without
touching `isLoading`; the try block sets `isLoading := true`, progress 10,
uploads, progress 30, submits, progress 50, runs the poll loop, then on
"completed" sets progress 90 (and 90 again on the subtitles branch),
fetches the SRT file when subtitles were requested, sets progress 100 and
downloads; any other final status throws.  The catch stores the error
message and the finally block resets `isLoading := false`. -/
def processAudio (inp : Inputs) (env : Env) (isLoading0 : Bool) : RunResult :=
  if inp.apiKey = "" then
    { events := [], progressTrace := [], isLoading := isLoading0,
      errorMessage := "Please enter your AssemblyAI API key",
      successMessage := "", download := none, outcome := RunOutcome.earlyNoKey }
  else
    match inp.audioFile with
    | none =>
      { events := [], progressTrace := [], isLoading := isLoading0,
        errorMessage := "Please select an audio file",
        successMessage := "", download := none, outcome := RunOutcome.earlyNoFile }
    | some file =>
      let uploadEvt := Event.call (NetCall.upload inp.apiKey file.bytes)
      if env.uploadOk = false then
        { events := [uploadEvt], progressTrace := [10], isLoading := false,
          errorMessage := "Failed to upload audio file", successMessage := "",
          download := none,
          outcome := RunOutcome.failed "Failed to upload audio file" }
      else
        let submitEvt := Event.call (NetCall.submit inp.apiKey env.uploadUrl)
        if env.submitOk = false then
          { events := [uploadEvt, submitEvt], progressTrace := [10, 30],
            isLoading := false,
            errorMessage := "Failed to submit transcription request",
            successMessage := "", download := none,
            outcome := RunOutcome.failed "Failed to submit transcription request" }
        else
          let transcriptId := env.transcriptId
          let pollRes := pollLoop inp.apiKey transcriptId env.polls 0 50
          let evts := [uploadEvt, submitEvt] ++ pollRes.events
          let prog := [10, 30, 50] ++ pollRes.progressUpdates
          match pollRes.outcome with
          | PollOutcome.exhausted =>
            { events := evts, progressTrace := prog, isLoading := true,
              errorMessage := "", successMessage := "", download := none,
              outcome := RunOutcome.incomplete }
          | PollOutcome.transportFail =>
            { events := evts, progressTrace := prog, isLoading := false,
              errorMessage := "Failed to check transcription status",
              successMessage := "", download := none,
              outcome := RunOutcome.failed "Failed to check transcription status" }
          | PollOutcome.finished status text _ =>
            if status = "completed" then
              if inp.outputType = "subtitles" then
                let srtEvt := Event.call
                  (NetCall.srt inp.apiKey transcriptId inp.characterLength)
                if env.srtOk = false then
                  { events := evts ++ [srtEvt], progressTrace := prog ++ [90, 90],
                    isLoading := false, errorMessage := "Failed to get SRT file",
                    successMessage := "", download := none,
                    outcome := RunOutcome.failed "Failed to get SRT file" }
                else
                  let output := env.srtText
                  let filename := stem file.name ++ ".srt"
                  { events := evts ++ [srtEvt],
                    progressTrace := prog ++ [90, 90, 100],
                    isLoading := false, errorMessage := "",
                    successMessage := "Your " ++ inp.outputType
                      ++ " has been successfully processed and downloaded!",
                    download := some (output, filename),
                    outcome := RunOutcome.succeeded output filename }
              else
                let output := text
                let filename := stem file.name ++ ".txt"
                { events := evts, progressTrace := prog ++ [90, 100],
                  isLoading := false, errorMessage := "",
                  successMessage := "Your " ++ inp.outputType
                    ++ " has been successfully processed and downloaded!",
                  download := some (output, filename),
                  outcome := RunOutcome.succeeded output filename }
            else
              { events := evts, progressTrace := prog, isLoading := false,
                errorMessage := "Transcription failed with status: " ++ status,
                successMessage := "", download := none,
                outcome := RunOutcome.failed
                  ("Transcription failed with status: " ++ status) }

theorem pollEvents_succ (auth id : String) (n : Nat) :
    pollEvents auth id (n + 1)
      = [Event.sleep 1000, Event.call (NetCall.pollStatus auth id)]
        ++ pollEvents auth id n := by
  simp [pollEvents, List.replicate_succ]

theorem pollLoop_events (auth id : String) (polls : List PollResponse)
    (pc prog : Nat) :
    (pollLoop auth id polls pc prog).events
      = pollEvents auth id ((polls.takeWhile continuing).length + 1) := by
  induction polls generalizing pc prog with
  | nil => simp [pollLoop, pollEvents]
  | cons r rest ih =>
    by_cases hok : r.ok = false
    · have hc : continuing r = false := by simp [continuing, hok]
      simp [pollLoop, hok, hc, pollEvents]
    · have hok' : r.ok = true := by revert hok; cases r.ok <;> simp
      by_cases hp : r.status = "processing"
      · have hc : continuing r = true := by simp [continuing, hok', hp]
        simp [pollLoop, hok, hp, hc, ih, pollEvents_succ]
      · by_cases hq : r.status = "queued"
        · have hc : continuing r = true := by simp [continuing, hok', hq]
          simp [pollLoop, hok, hp, hq, hc, ih, pollEvents_succ]
        · have hc : continuing r = false := by simp [continuing, hok', hp, hq]
          simp [pollLoop, hok, hp, hq, hc, pollEvents]

theorem pollLoop_outcome (auth id : String) (polls : List PollResponse)
    (pc prog : Nat) :
    (pollLoop auth id polls pc prog).outcome
      = match polls.dropWhile continuing with
        | [] => PollOutcome.exhausted
        | r :: _ =>
          if r.ok = false then PollOutcome.transportFail
          else PollOutcome.finished r.status r.text
            (pc + (polls.takeWhile continuing).length + 1) := by
  induction polls generalizing pc prog with
  | nil => simp [pollLoop]
  | cons r rest ih =>
    by_cases hok : r.ok = false
    · have hc : continuing r = false := by simp [continuing, hok]
      simp [pollLoop, hok, hc]
    · have hok' : r.ok = true := by revert hok; cases r.ok <;> simp
      by_cases hp : r.status = "processing"
      · have hc : continuing r = true := by simp [continuing, hok', hp]
        simp [pollLoop, hok, hp, hc, ih]
        cases hrest : rest.dropWhile continuing with
        | nil => simp
        | cons s tl =>
          by_cases hs : s.ok = false
          · simp [hs]
          · simp [hs]; omega
      · by_cases hq : r.status = "queued"
        · have hc : continuing r = true := by simp [continuing, hok', hq]
          simp [pollLoop, hok, hp, hq, hc, ih]
          cases hrest : rest.dropWhile continuing with
          | nil => simp
          | cons s tl =>
            by_cases hs : s.ok = false
            · simp [hs]
            · simp [hs]; omega
        · have hc : continuing r = false := by simp [continuing, hok', hp, hq]
          simp [pollLoop, hok, hp, hq, hc]

theorem pollLoop_progress_mono (auth id : String) (polls : List PollResponse)
    (pc prog : Nat) (h80 : prog ≤ 80) (hlb : prog ≤ 50 + (pc + 1) * 2) :
    List.Chain' (fun a b => a ≤ b)
      (prog :: (pollLoop auth id polls pc prog).progressUpdates)
    ∧ ∀ x ∈ (pollLoop auth id polls pc prog).progressUpdates, x ≤ 80 := by
  induction polls generalizing pc prog with
  | nil => simp [pollLoop]
  | cons r rest ih =>
    by_cases hok : r.ok = false
    · simp [pollLoop, hok]
    · by_cases hp : r.status = "processing"
      · obtain ⟨hchain, hbound⟩ :=
          ih (pc + 1) (min 80 (50 + (pc + 1) * 2)) (by omega) (by omega)
        refine ⟨?_, ?_⟩
        · simp only [pollLoop, hok, hp, if_neg, if_pos, List.chain'_cons]
          simp [hok, hp, List.chain'_cons]
          exact ⟨by omega, hchain⟩
        · simp [pollLoop, hok, hp]
          exact hbound
      · by_cases hq : r.status = "queued"
        · obtain ⟨hchain, hbound⟩ := ih (pc + 1) prog h80 (by omega)
          refine ⟨?_, ?_⟩
          · simp [pollLoop, hok, hp, hq]
            exact hchain
          · simp [pollLoop, hok, hp, hq]
            exact hbound
        · simp [pollLoop, hok, hp, hq]

theorem pollLoop_updates (auth id : String) (polls : List PollResponse)
    (pc prog : Nat) :
    (pollLoop auth id polls pc prog).progressUpdates
      = (((polls.takeWhile continuing).enumFrom (pc + 1)).filter
            fun p => decide (p.2.status = "processing")).map
          fun p => min 80 (50 + p.1 * 2) := by
  induction polls generalizing pc prog with
  | nil => simp [pollLoop]
  | cons r rest ih =>
    by_cases hok : r.ok = false
    · have hc : continuing r = false := by simp [continuing, hok]
      simp [pollLoop, hok, hc]
    · have hok' : r.ok = true := by revert hok; cases r.ok <;> simp
      by_cases hp : r.status = "processing"
      · have hc : continuing r = true := by simp [continuing, hok', hp]
        simp [pollLoop, hok, hp, hc, ih, List.enumFrom_cons, List.filter_cons]
      · by_cases hq : r.status = "queued"
        · have hc : continuing r = true := by simp [continuing, hok', hq]
          simp [pollLoop, hok, hp, hq, hc, ih, List.enumFrom_cons, List.filter_cons]
        · have hc : continuing r = false := by simp [continuing, hok', hp, hq]
          simp [pollLoop, hok, hp, hq, hc]

theorem takeWhile_append_all {α : Type} (p : α → Bool) (pre : List α) (r : α)
    (rest : List α) (hpre : ∀ x ∈ pre, p x = true) (hr : p r = false) :
    (pre ++ r :: rest).takeWhile p = pre := by
  induction pre with
  | nil => simp [List.takeWhile_cons, hr]
  | cons a tl ih =>
    have ha := hpre a (by simp)
    simp [List.takeWhile_cons, ha]
    exact ih fun x hx => hpre x (by simp [hx])

theorem dropWhile_append_all {α : Type} (p : α → Bool) (pre : List α) (r : α)
    (rest : List α) (hpre : ∀ x ∈ pre, p x = true) (hr : p r = false) :
    (pre ++ r :: rest).dropWhile p = r :: rest := by
  induction pre with
  | nil => simp [List.dropWhile_cons, hr]
  | cons a tl ih =>
    have ha := hpre a (by simp)
    simp [List.dropWhile_cons, ha]
    exact ih fun x hx => hpre x (by simp [hx])

/-- Recognizer for status-query events in a trace. -/
def isPollCall : Event → Bool
  | Event.call (NetCall.pollStatus _ _) => true
  | _ => false

/-- Recognizer for upload events in a trace. -/
def isUploadCall : Event → Bool
  | Event.call (NetCall.upload _ _) => true
  | _ => false

/-- Recognizer for job-submit events in a trace. -/
def isSubmitCall : Event → Bool
  | Event.call (NetCall.submit _ _) => true
  | _ => false

/-- Recognizer for caption-endpoint events in a trace. -/
def isSrtCall : Event → Bool
  | Event.call (NetCall.srt _ _ _) => true
  | _ => false

/-- Recognizer for any network call in a trace. -/
def isCall : Event → Bool
  | Event.call _ => true
  | _ => false

theorem countP_pollEvents_isPollCall (auth id : String) (n : Nat) :
    (pollEvents auth id n).countP isPollCall = n := by
  induction n with
  | zero => simp [pollEvents]
  | succ k ih =>
    simp [pollEvents_succ, List.countP_append, List.countP_cons, isPollCall, ih]

theorem countP_pollEvents_isUploadCall (auth id : String) (n : Nat) :
    (pollEvents auth id n).countP isUploadCall = 0 := by
  induction n with
  | zero => simp [pollEvents]
  | succ k ih =>
    simp [pollEvents_succ, List.countP_append, List.countP_cons, isUploadCall, ih]

theorem countP_pollEvents_isSubmitCall (auth id : String) (n : Nat) :
    (pollEvents auth id n).countP isSubmitCall = 0 := by
  induction n with
  | zero => simp [pollEvents]
  | succ k ih =>
    simp [pollEvents_succ, List.countP_append, List.countP_cons, isSubmitCall, ih]

theorem countP_pollEvents_isSrtCall (auth id : String) (n : Nat) :
    (pollEvents auth id n).countP isSrtCall = 0 := by
  induction n with
  | zero => simp [pollEvents]
  | succ k ih =>
    simp [pollEvents_succ, List.countP_append, List.countP_cons, isSrtCall, ih]

theorem jsSplit_headD (sep : Char) (l : List Char) :
    (jsSplit sep l).headD [] = l.takeWhile fun c => !decide (c = sep) := by
  induction l with
  | nil => simp [jsSplit]
  | cons c rest ih =>
    by_cases h : c = sep
    · simp [jsSplit, h, List.takeWhile_cons]
    · simp only [jsSplit, if_neg h, List.headD_cons, List.takeWhile_cons, h]
      simpa using ih

/-- The status responses of the spec's scenario Queued, Processing,
Processing, Completed. -/
def scenarioPolls : List PollResponse :=
  [{ ok := true, status := "queued", text := "" },
   { ok := true, status := "processing", text := "" },
   { ok := true, status := "processing", text := "" },
   { ok := true, status := "completed", text := "Hello world" }]

/-- Inputs of the scenario runs: "interview.wav" with a transcript output. -/
def scenarioInp : Inputs :=
  { apiKey := "key", audioFile := some { name := "interview.wav", bytes := [1, 2, 3] },
    outputType := "transcript", characterLength := 32 }

/-- A fully successful environment serving the scenario poll responses. -/
def scenarioEnv : Env :=
  { uploadOk := true, uploadUrl := "upload-uri", submitOk := true,
    transcriptId := "job-1", polls := scenarioPolls, srtOk := true, srtText := "" }

/-- C1: the poll loop never hands control back on a transport-ok Queued or
Processing response: it consumes exactly the longest prefix of such
responses, each consumed response costing exactly one iteration that first
suspends for the fixed 1000 ms interval and then issues exactly one status
query, and the loop ends exactly once, at the first response that is
transport non-ok (transport failure) or whose status is neither "queued"
nor "processing" (Completed, Error, or any other value); when no such
deciding response is among the modelled ones the loop is still running
(outcome exhausted). -/
theorem poller_stops_exactly_at_first_terminal (auth id : String)
    (polls : List PollResponse) (pc prog : Nat) :
    (pollLoop auth id polls pc prog).events
        = pollEvents auth id ((polls.takeWhile continuing).length + 1)
    ∧ (pollLoop auth id polls pc prog).outcome
        = match polls.dropWhile continuing with
          | [] => PollOutcome.exhausted
          | r :: _ =>
            if r.ok = false then PollOutcome.transportFail
            else PollOutcome.finished r.status r.text
              (pc + (polls.takeWhile continuing).length + 1) :=
  ⟨pollLoop_events auth id polls pc prog, pollLoop_outcome auth id polls pc prog⟩

/-- C2 counterexample: with responses Queued, Processing, Processing,
Completed, the loop assigns progress 54 and then 56 — the source's
pollCount counts the Queued poll as well — not 52 and then 54 as
min(80, 50 + 2k) with k counting only Processing observations would
give. -/
theorem progress_sequence_counterexample :
    (pollLoop "key" "job-1" scenarioPolls 0 50).progressUpdates = [54, 56]
    ∧ ¬ (pollLoop "key" "job-1" scenarioPolls 0 50).progressUpdates = [52, 54] := by
  decide

/-- C2 (amended): the estimate assigned on a Processing response observed
as the k-th poll overall (counting every poll from 1, Queued polls
included) is min(80, 50 + 2k); for the Queued, Processing, Processing,
Completed scenario exactly 4 status calls are issued and the progress
assignments are 10, 30, 50 before polling, then 54 and 56, then the
terminal 90 and 100. -/
theorem progress_formula_and_scenario (auth id : String)
    (polls : List PollResponse) :
    (pollLoop auth id polls 0 50).progressUpdates
      = (((polls.takeWhile continuing).enumFrom 1).filter
            fun p => decide (p.2.status = "processing")).map
          (fun p => min 80 (50 + p.1 * 2))
    ∧ (processAudio scenarioInp scenarioEnv false).events.countP isPollCall = 4
    ∧ (processAudio scenarioInp scenarioEnv false).progressTrace
        = [10, 30, 50, 54, 56, 90, 100] :=
  ⟨pollLoop_updates auth id polls 0 50, by decide, by decide⟩

/-- C3: starting from the fixed value 50 assigned when polling begins, the
progress estimates assigned inside the poll loop are non-decreasing and
never exceed 80; the values 90 and 100 are assigned only by the terminal
stage after the loop has exited with Completed, never inside the loop. -/
theorem progress_monotone_clamped (auth id : String)
    (polls : List PollResponse) :
    List.Chain' (fun a b => a ≤ b)
      (50 :: (pollLoop auth id polls 0 50).progressUpdates)
    ∧ ∀ x ∈ (pollLoop auth id polls 0 50).progressUpdates, x ≤ 80 :=
  pollLoop_progress_mono auth id polls 0 50 (by omega) (by omega)

/-- C4: when the first deciding status response is transport-ok with a
status outside the closed set queued, processing, completed and error, the
run stops polling at that response (pre.length + 1 status queries in
total, never looping on the unrecognized value) and fails with the error
message carrying that status — a failure outcome, never the success
path. -/
theorem unexpected_status_fails_fast (inp : Inputs) (env : Env) (b : Bool)
    (file : AudioFile) (pre rest : List PollResponse) (r : PollResponse)
    (hkey : ¬ inp.apiKey = "") (hfile : inp.audioFile = some file)
    (hup : env.uploadOk = true) (hsub : env.submitOk = true)
    (hpolls : env.polls = pre ++ r :: rest)
    (hpre : ∀ x ∈ pre, continuing x = true)
    (hok : r.ok = true)
    (hq : ¬ r.status = "queued") (hp : ¬ r.status = "processing")
    (hc : ¬ r.status = "completed") (_he : ¬ r.status = "error") :
    (processAudio inp env b).outcome
        = RunOutcome.failed ("Transcription failed with status: " ++ r.status)
    ∧ (processAudio inp env b).events.countP isPollCall = pre.length + 1 := by
  have hcont : continuing r = false := by simp [continuing, hok, hq, hp]
  have htw : env.polls.takeWhile continuing = pre := by
    rw [hpolls]; exact takeWhile_append_all continuing pre r rest hpre hcont
  have hdw : env.polls.dropWhile continuing = r :: rest := by
    rw [hpolls]; exact dropWhile_append_all continuing pre r rest hpre hcont
  have hout := pollLoop_outcome inp.apiKey env.transcriptId env.polls 0 50
  rw [hdw, htw] at hout
  simp [hok] at hout
  have hev := pollLoop_events inp.apiKey env.transcriptId env.polls 0 50
  rw [htw] at hev
  simp [processAudio, hkey, hfile, hup, hsub, hout, hev, hc,
    countP_pollEvents_isPollCall, List.countP_append, List.countP_cons,
    isPollCall]

/-- The concrete run for the C4 witness: one status response carrying the
unrecognized value "bogus". -/
def bogusEnv : Env :=
  { uploadOk := true, uploadUrl := "u", submitOk := true, transcriptId := "t",
    polls := [{ ok := true, status := "bogus", text := "" }],
    srtOk := true, srtText := "" }

/-- Witness for C4 at a concrete run whose only status response has the
unrecognized value "bogus". -/
theorem unexpected_status_fails_fast_witness :
    (processAudio scenarioInp bogusEnv false).outcome
        = RunOutcome.failed ("Transcription failed with status: " ++ "bogus")
    ∧ (processAudio scenarioInp bogusEnv false).events.countP isPollCall = 1 := by
  have h := unexpected_status_fails_fast scenarioInp bogusEnv false
      { name := "interview.wav", bytes := [1, 2, 3] } [] []
      { ok := true, status := "bogus", text := "" }
      (by decide) rfl rfl rfl rfl (by simp) rfl
      (by decide) (by decide) (by decide) (by decide)
  exact h

/-- Inputs with a present but zero-byte audio file. -/
def emptyFileInp : Inputs :=
  { apiKey := "k", audioFile := some { name := "a.wav", bytes := [] },
    outputType := "transcript", characterLength := 32 }

/-- Inputs with no audio file selected. -/
def noFileInp : Inputs :=
  { apiKey := "k", audioFile := none, outputType := "transcript",
    characterLength := 32 }

/-- An environment whose upload call fails. -/
def failUploadEnv : Env :=
  { uploadOk := false, uploadUrl := "", submitOk := false, transcriptId := "",
    polls := [], srtOk := false, srtText := "" }

/-- C5 counterexample: a present but zero-byte audio payload is not
rejected before a network call — the upload call is issued carrying the
empty body, because the source checks only that a file is selected, not
that it is non-empty. -/
theorem empty_payload_not_rejected :
    (processAudio emptyFileInp failUploadEnv false).events
      = [Event.call (NetCall.upload "k" [])]
    ∧ ¬ (processAudio emptyFileInp failUploadEnv false).events.countP isCall = 0 := by
  decide

/-- C5 (amended): the pre-network check rejects a missing file (no file
selected) before any network call; for every present file — zero-byte
payloads included — the upload call is the first network call and carries
the payload bytes with the credential attached, and a non-ok upload
response ends the run at once with the upload failure: exactly one upload
call and no further call, so no retry. -/
theorem upload_gate (inp : Inputs) (env : Env) (b : Bool)
    (hkey : ¬ inp.apiKey = "") :
    (inp.audioFile = none →
      (processAudio inp env b).outcome = RunOutcome.earlyNoFile
      ∧ (processAudio inp env b).events = [])
    ∧ ∀ file, inp.audioFile = some file →
        (processAudio inp env b).events.head?
            = some (Event.call (NetCall.upload inp.apiKey file.bytes))
        ∧ (env.uploadOk = false →
            (processAudio inp env b).events
                = [Event.call (NetCall.upload inp.apiKey file.bytes)]
            ∧ (processAudio inp env b).outcome
                = RunOutcome.failed "Failed to upload audio file") := by
  constructor
  · intro hnone
    simp [processAudio, hkey, hnone]
  · intro file hfile
    refine ⟨?_, ?_⟩
    · simp only [processAudio, hfile, if_neg hkey]
      repeat' split
      all_goals simp
    · intro hupfail
      simp [processAudio, hkey, hfile, hupfail]

/-- Witness for C5: the missing-file run ends early with no event, and the
zero-byte-file run issues the upload call with the empty body. -/
theorem upload_gate_witness :
    (processAudio noFileInp failUploadEnv false).outcome = RunOutcome.earlyNoFile
    ∧ (processAudio emptyFileInp failUploadEnv false).events
        = [Event.call (NetCall.upload "k" [])]
    ∧ (processAudio emptyFileInp failUploadEnv false).outcome
        = RunOutcome.failed "Failed to upload audio file" := by
  have h1 := ((upload_gate noFileInp failUploadEnv false (by decide)).1 rfl).1
  have h2 := ((upload_gate emptyFileInp failUploadEnv false (by decide)).2
      { name := "a.wav", bytes := [] } rfl).2 rfl
  exact ⟨h1, h2.1, h2.2⟩

/-- C6: the output filename stem is the display name split on "." with the
first segment taken, which coincides with taking the characters strictly
before the first dot of the name (for every display name, including names
without any dot); "meeting.recording.mp3" stems to "meeting" and "podcast"
to "podcast", suffixed ".txt" for transcripts and ".srt" for subtitles. -/
theorem filename_derivation (name : String) :
    stem name = specStem name
    ∧ stem "meeting.recording.mp3" ++ ".txt" = "meeting.txt"
    ∧ stem "podcast" ++ ".txt" = "podcast.txt"
    ∧ stem "meeting.recording.mp3" ++ ".srt" = "meeting.srt"
    ∧ stem "podcast" ++ ".srt" = "podcast.srt" := by
  refine ⟨?_, by decide, by decide, by decide, by decide⟩
  unfold stem specStem
  rw [jsSplit_headD]

/-- C7: a run that reaches Completed with Transcript output delivers
exactly the transcript text of the completed payload under the filename
stem + ".txt", and the event trace is exactly upload, submit and the poll
iterations — no network call after the final status query. -/
theorem transcript_output (inp : Inputs) (env : Env) (b : Bool)
    (file : AudioFile) (pre rest : List PollResponse) (r : PollResponse)
    (hkey : ¬ inp.apiKey = "") (hfile : inp.audioFile = some file)
    (hsubt : ¬ inp.outputType = "subtitles")
    (hup : env.uploadOk = true) (hsub : env.submitOk = true)
    (hpolls : env.polls = pre ++ r :: rest)
    (hpre : ∀ x ∈ pre, continuing x = true)
    (hok : r.ok = true) (hst : r.status = "completed") :
    (processAudio inp env b).outcome
        = RunOutcome.succeeded r.text (stem file.name ++ ".txt")
    ∧ (processAudio inp env b).download
        = some (r.text, stem file.name ++ ".txt")
    ∧ (processAudio inp env b).events
        = [Event.call (NetCall.upload inp.apiKey file.bytes),
           Event.call (NetCall.submit inp.apiKey env.uploadUrl)]
          ++ pollEvents inp.apiKey env.transcriptId (pre.length + 1) := by
  have hcont : continuing r = false := by simp [continuing, hst]
  have htw : env.polls.takeWhile continuing = pre := by
    rw [hpolls]; exact takeWhile_append_all continuing pre r rest hpre hcont
  have hdw : env.polls.dropWhile continuing = r :: rest := by
    rw [hpolls]; exact dropWhile_append_all continuing pre r rest hpre hcont
  have hout := pollLoop_outcome inp.apiKey env.transcriptId env.polls 0 50
  rw [hdw, htw] at hout
  simp [hok] at hout
  have hev := pollLoop_events inp.apiKey env.transcriptId env.polls 0 50
  rw [htw] at hev
  simp [processAudio, hkey, hfile, hup, hsub, hout, hst, hsubt, hev]

/-- The environment of the first-poll-completed scenario: the only status
response is Completed with text "Hello world". -/
def firstPollEnv : Env :=
  { uploadOk := true, uploadUrl := "u", submitOk := true, transcriptId := "t",
    polls := [{ ok := true, status := "completed", text := "Hello world" }],
    srtOk := true, srtText := "" }

/-- Witness for C7: "interview.wav" with Transcript output completing on
the first poll with text "Hello world" yields the file
("Hello world", "interview.txt"). -/
theorem transcript_output_witness :
    (processAudio scenarioInp firstPollEnv false).outcome
        = RunOutcome.succeeded "Hello world" "interview.txt"
    ∧ (processAudio scenarioInp firstPollEnv false).download
        = some ("Hello world", "interview.txt") := by
  have h := transcript_output scenarioInp firstPollEnv false
      { name := "interview.wav", bytes := [1, 2, 3] } [] []
      { ok := true, status := "completed", text := "Hello world" }
      (by decide) rfl (by decide) rfl rfl rfl (by simp) rfl rfl
  have hs : stem "interview.wav" ++ ".txt" = "interview.txt" := by decide
  rw [hs] at h
  exact ⟨h.1, h.2.1⟩

/-- C8: a run that reaches Completed with Subtitles output issues exactly
one extra call, to the caption endpoint, carrying the requested
characters-per-caption value; on a transport-ok caption response the raw
response text is the output verbatim under stem + ".srt", and a non-ok
caption response fails the run. -/
theorem subtitles_output (inp : Inputs) (env : Env) (b : Bool)
    (file : AudioFile) (pre rest : List PollResponse) (r : PollResponse)
    (hkey : ¬ inp.apiKey = "") (hfile : inp.audioFile = some file)
    (hsubt : inp.outputType = "subtitles")
    (hup : env.uploadOk = true) (hsub : env.submitOk = true)
    (hpolls : env.polls = pre ++ r :: rest)
    (hpre : ∀ x ∈ pre, continuing x = true)
    (hok : r.ok = true) (hst : r.status = "completed") :
    (processAudio inp env b).events
        = [Event.call (NetCall.upload inp.apiKey file.bytes),
           Event.call (NetCall.submit inp.apiKey env.uploadUrl)]
          ++ pollEvents inp.apiKey env.transcriptId (pre.length + 1)
          ++ [Event.call (NetCall.srt inp.apiKey env.transcriptId inp.characterLength)]
    ∧ (env.srtOk = true →
        (processAudio inp env b).outcome
            = RunOutcome.succeeded env.srtText (stem file.name ++ ".srt")
        ∧ (processAudio inp env b).download
            = some (env.srtText, stem file.name ++ ".srt"))
    ∧ (env.srtOk = false →
        (processAudio inp env b).outcome
            = RunOutcome.failed "Failed to get SRT file") := by
  have hcont : continuing r = false := by simp [continuing, hst]
  have htw : env.polls.takeWhile continuing = pre := by
    rw [hpolls]; exact takeWhile_append_all continuing pre r rest hpre hcont
  have hdw : env.polls.dropWhile continuing = r :: rest := by
    rw [hpolls]; exact dropWhile_append_all continuing pre r rest hpre hcont
  have hout := pollLoop_outcome inp.apiKey env.transcriptId env.polls 0 50
  rw [hdw, htw] at hout
  simp [hok] at hout
  have hev := pollLoop_events inp.apiKey env.transcriptId env.polls 0 50
  rw [htw] at hev
  refine ⟨?_, ?_, ?_⟩
  · by_cases hsrt : env.srtOk = false <;>
      simp [processAudio, hkey, hfile, hup, hsub, hout, hst, hsubt, hev, hsrt]
  · intro hsrtOk
    simp [processAudio, hkey, hfile, hup, hsub, hout, hst, hsubt, hev, hsrtOk]
  · intro hsrtFail
    simp [processAudio, hkey, hfile, hup, hsub, hout, hst, hsubt, hev, hsrtFail]

/-- Inputs of the subtitles scenario: "interview.wav" with Subtitles output
at 32 characters per line. -/
def subtitleInp : Inputs :=
  { apiKey := "key", audioFile := some { name := "interview.wav", bytes := [1, 2, 3] },
    outputType := "subtitles", characterLength := 32 }

/-- The environment of the subtitles scenario: completed on the first poll
and an SRT body returned by the caption endpoint. -/
def srtEnv : Env :=
  { uploadOk := true, uploadUrl := "u", submitOk := true, transcriptId := "t",
    polls := [{ ok := true, status := "completed", text := "Hello world" }],
    srtOk := true, srtText := "1\n00:00:00,000 --> 00:00:01,000\nHello\n" }

/-- Witness for C8: with 32 characters per line and the caption endpoint
returning the sample SRT body, the result file is exactly that text named
"interview.srt", and exactly one caption call was issued. -/
theorem subtitles_output_witness :
    (processAudio subtitleInp srtEnv false).outcome
        = RunOutcome.succeeded "1\n00:00:00,000 --> 00:00:01,000\nHello\n"
            "interview.srt"
    ∧ (processAudio subtitleInp srtEnv false).events.countP isSrtCall = 1 := by
  have h := subtitles_output subtitleInp srtEnv false
      { name := "interview.wav", bytes := [1, 2, 3] } [] []
      { ok := true, status := "completed", text := "Hello world" }
      (by decide) rfl rfl rfl rfl rfl (by simp) rfl rfl
  have hs : stem "interview.wav" ++ ".srt" = "interview.srt" := by decide
  refine ⟨?_, ?_⟩
  · have hq := (h.2.1 rfl).1
    rw [hs] at hq
    exact hq
  · rw [h.1]
    decide

/-- C9: a non-ok submit response aborts the run at once with the submit
error: the event trace is exactly the upload call followed by the submit
call, so no status query and no caption call is ever issued afterwards;
moreover no run whatsoever issues more than one upload, one submit or one
caption call — no stage retries after a failure. -/
theorem submit_failure_aborts (inp : Inputs) (env : Env) (b : Bool)
    (file : AudioFile)
    (hkey : ¬ inp.apiKey = "") (hfile : inp.audioFile = some file)
    (hup : env.uploadOk = true) (hsub : env.submitOk = false) :
    (processAudio inp env b).outcome
        = RunOutcome.failed "Failed to submit transcription request"
    ∧ (processAudio inp env b).events
        = [Event.call (NetCall.upload inp.apiKey file.bytes),
           Event.call (NetCall.submit inp.apiKey env.uploadUrl)]
    ∧ ∀ inp2 env2 b2,
        (processAudio inp2 env2 b2).events.countP isUploadCall ≤ 1
        ∧ (processAudio inp2 env2 b2).events.countP isSubmitCall ≤ 1
        ∧ (processAudio inp2 env2 b2).events.countP isSrtCall ≤ 1 := by
  refine ⟨?_, ?_, ?_⟩
  · simp [processAudio, hkey, hfile, hup, hsub]
  · simp [processAudio, hkey, hfile, hup, hsub]
  · intro inp2 env2 b2
    simp only [processAudio]
    repeat' split
    all_goals
      simp [pollLoop_events, List.countP_append, List.countP_cons,
        isUploadCall, isSubmitCall, isSrtCall,
        countP_pollEvents_isUploadCall, countP_pollEvents_isSubmitCall,
        countP_pollEvents_isSrtCall]

/-- The environment whose submit call fails after a successful upload. -/
def submitFailEnv : Env :=
  { uploadOk := true, uploadUrl := "u", submitOk := false, transcriptId := "",
    polls := [], srtOk := false, srtText := "" }

/-- Witness for C9 at a concrete run whose submit call returns non-ok. -/
theorem submit_failure_aborts_witness :
    (processAudio scenarioInp submitFailEnv false).outcome
        = RunOutcome.failed "Failed to submit transcription request"
    ∧ (processAudio scenarioInp submitFailEnv false).events
        = [Event.call (NetCall.upload "key" [1, 2, 3]),
           Event.call (NetCall.submit "key" "u")] := by
  have h := submit_failure_aborts scenarioInp submitFailEnv false
      { name := "interview.wav", bytes := [1, 2, 3] } (by decide) rfl rfl rfl
  exact ⟨h.1, h.2.1⟩

/-- C10: with the loading flag false when the handler starts (its initial
value, and the button that triggers the handler is disabled while the flag
is true), the flag is still true after the run only in the modelled
incomplete case, where the loop is still awaiting further status
responses; both early rejections, every failure path and both success
paths finish with the flag false — the flag is set true only after the two
precondition checks pass and the finally block clears it on every exit. -/
theorem loading_flag_clear_on_finish (inp : Inputs) (env : Env) :
    (processAudio inp env false).isLoading
      = decide ((processAudio inp env false).outcome = RunOutcome.incomplete) := by
  simp only [processAudio]
  repeat' split
  all_goals simp

end TranscriptHelper
